import Mathlib

/-!
Verification development for the watermark compositing and detection engine of
the GeminiWatermarkTool repository (`src/core/watermark_engine.cpp`,
`src/core/watermark_detector.cpp`, `src/core/watermark_detector.hpp`).

The C++ code is shallowly embedded: 8-bit pixel channels become `Nat` values,
the floating-point numeric kernels are modelled in exact arithmetic (`ℚ`, and
`ℝ` where a square root occurs), images and alpha maps become structures with
a dimension pair and a pixel function, fallible operations return
`Except String`.  Calls into the OpenCV library (resampling, Canny edge
detection) are not code of this repository; they are taken as parameters of
the embedded operations.
-/

namespace GWT

/-- `WatermarkPosition` from the engine: margins and logo size
(`watermark_engine.cpp` uses the aggregate `{margin_right, margin_bottom,
logo_size}`). -/
structure WatermarkPosition where
  margin_right : ℤ
  margin_bottom : ℤ
  logo_size : ℤ
deriving DecidableEq

/-- The two watermark size classes. -/
inductive WatermarkSize where
  | Small
  | Large
deriving DecidableEq

/-- `get_watermark_config` (`watermark_engine.cpp` lines 25-43): Large config
`{64, 64, 96}` iff both dimensions strictly exceed 1024, else Small config
`{32, 32, 48}`. -/
def get_watermark_config (image_width image_height : ℤ) : WatermarkPosition :=
  if 1024 < image_width ∧ 1024 < image_height then
    ⟨64, 64, 96⟩
  else
    ⟨32, 32, 48⟩

/-- `get_watermark_size` (`watermark_engine.cpp` lines 45-52): Large iff both
dimensions strictly exceed 1024. -/
def get_watermark_size (image_width image_height : ℤ) : WatermarkSize :=
  if 1024 < image_width ∧ 1024 < image_height then
    WatermarkSize.Large
  else
    WatermarkSize.Small

/-- Modelled from the spec: `WatermarkPosition::get_position` is declared in
`core/watermark_engine.hpp`, which is not under `src/`.  Spec section 4.2:
position `(W - margin_right - logo_size, H - margin_bottom - logo_size)`,
with a negative coordinate clamped to 0. -/
def WatermarkPosition.get_position (c : WatermarkPosition) (w h : ℤ) : ℤ × ℤ :=
  (max 0 (w - c.margin_right - c.logo_size), max 0 (h - c.margin_bottom - c.logo_size))

/-- `cv::Rect` with integer coordinates. -/
structure Rect where
  x : ℤ
  y : ℤ
  width : ℤ
  height : ℤ
deriving DecidableEq

/-- OpenCV rectangle intersection (`operator&`): componentwise max/min, and
the all-zero rectangle when the intersection is empty. -/
def cvInter (a b : Rect) : Rect :=
  let x1 := max a.x b.x
  let y1 := max a.y b.y
  let wi := min (a.x + a.width) (b.x + b.width) - x1
  let hi := min (a.y + a.height) (b.y + b.height) - y1
  if wi ≤ 0 ∨ hi ≤ 0 then ⟨0, 0, 0, 0⟩ else ⟨x1, y1, wi, hi⟩

/-- `get_fallback_watermark_region` (`watermark_detector.cpp` lines 156-160):
config from image dimensions, position via `get_position`, box of side
`logo_size`. -/
def get_fallback_watermark_region (image_width image_height : ℤ) : Rect :=
  let config := get_watermark_config image_width image_height
  let pos := config.get_position image_width image_height
  ⟨pos.1, pos.2, config.logo_size, config.logo_size⟩

/-- C2.  Size classification: Large iff both width and height strictly exceed
1024, otherwise Small; 1024x1024 is Small, 1025x1025 is Large, 2000x1000 is
Small. -/
theorem size_classification_rule :
    (∀ w h : ℤ, get_watermark_size w h =
      if 1024 < w ∧ 1024 < h then WatermarkSize.Large else WatermarkSize.Small) ∧
    get_watermark_size 1024 1024 = WatermarkSize.Small ∧
    get_watermark_size 1025 1025 = WatermarkSize.Large ∧
    get_watermark_size 2000 1000 = WatermarkSize.Small := by
  refine ⟨fun w h => rfl, by decide, by decide, by decide⟩

/-- C2 witness: the classification evaluated at 1025x1025. -/
theorem size_classification_rule_witness :
    get_watermark_size 1025 1025 = WatermarkSize.Large :=
  size_classification_rule.2.2.1

/-- C3.  Position resolution: the fallback watermark region is the box of side
`logo_size` at `(W - margin_right - logo_size, H - margin_bottom - logo_size)`
with `{32,32,48}` for Small and `{64,64,96}` for Large, negative coordinates
clamped to 0; for a 2000x2000 image the Large configuration yields position
(1840, 1840). -/
theorem position_resolution :
    (∀ w h : ℤ, get_fallback_watermark_region w h =
      if 1024 < w ∧ 1024 < h then
        ⟨max 0 (w - 64 - 96), max 0 (h - 64 - 96), 96, 96⟩
      else
        ⟨max 0 (w - 32 - 48), max 0 (h - 32 - 48), 48, 48⟩) ∧
    get_fallback_watermark_region 2000 2000 = ⟨1840, 1840, 96, 96⟩ := by
  constructor
  · intro w h
    by_cases hc : 1024 < w ∧ 1024 < h <;>
      simp [get_fallback_watermark_region, get_watermark_config,
            WatermarkPosition.get_position, hc]
  · decide

/-- C3 witness: the fallback region of a 2000x2000 image. -/
theorem position_resolution_witness :
    get_fallback_watermark_region 2000 2000 = ⟨1840, 1840, 96, 96⟩ :=
  position_resolution.2

/-! ## Region detector (`watermark_detector.cpp`)

The detector runs on the single-channel intensity image produced by the
(external, OpenCV) grayscale conversion, so the embedding takes the grayscale
image directly.  The Canny edge detector is an OpenCV call as well; it enters
the model as a parameter `canny` returning the count of edge pixels of a
region. -/

/-- A single-channel intensity image: dimensions plus intensity per pixel. -/
structure GrayImage where
  width : ℕ
  height : ℕ
  pix : ℤ → ℤ → ℚ

/-- `std::clamp(v, lo, hi)`. -/
def cvClamp {α : Type} [LinearOrder α] (v lo hi : α) : α :=
  max lo (min hi v)

/-- Sum of the intensities of a rectangle of a grayscale image. -/
def rectSum (g : GrayImage) (r : Rect) : ℚ :=
  ∑ j ∈ Finset.range r.height.toNat, ∑ i ∈ Finset.range r.width.toNat,
    g.pix (r.x + i) (r.y + j)

/-- `cv::mean` over a rectangle. -/
def rectMean (g : GrayImage) (r : Rect) : ℚ :=
  rectSum g r / ((r.width * r.height : ℤ) : ℚ)

/-- Population variance over a rectangle (the square of the standard
deviation computed by `cv::meanStdDev`). -/
def rectVar (g : GrayImage) (r : Rect) : ℚ :=
  (∑ j ∈ Finset.range r.height.toNat, ∑ i ∈ Finset.range r.width.toNat,
    (g.pix (r.x + i) (r.y + j) - rectMean g r) ^ 2) / ((r.width * r.height : ℤ) : ℚ)

/-- Standard deviation computed by `cv::meanStdDev` over a rectangle. -/
noncomputable def rectStddev (g : GrayImage) (r : Rect) : ℝ :=
  Real.sqrt ((rectVar g r : ℚ) : ℝ)

/-- Expected watermark box of `detect_watermark_region`
(`watermark_detector.cpp` lines 45-51): position from the placement config,
box of side `logo_size`. -/
def detExpectedRect (w h : ℤ) : Rect :=
  let config := get_watermark_config w h
  let pos := config.get_position w h
  ⟨pos.1, pos.2, config.logo_size, config.logo_size⟩

/-- Image bounds rectangle (`cv::Rect image_bounds(0, 0, cols, rows)`). -/
def detBounds (w h : ℤ) : Rect :=
  ⟨0, 0, w, h⟩

/-- Clipped candidate region `roi = result.region & image_bounds`
(`watermark_detector.cpp` line 66). -/
def detRoi (w h : ℤ) : Rect :=
  cvInter (detExpectedRect w h) (detBounds w h)

/-- Reference-patch height `ref_height = std::min(expected_pos.y,
config.logo_size)` (`watermark_detector.cpp` line 82). -/
def detRefHeight (w h : ℤ) : ℤ :=
  min ((get_watermark_config w h).get_position w h).2 (get_watermark_config w h).logo_size

/-- Clipped reference patch `ref_roi = Rect(roi.x, roi.y - ref_height,
roi.width, ref_height) & image_bounds` (`watermark_detector.cpp` lines
84-85). -/
def detRefRect (w h : ℤ) : Rect :=
  cvInter ⟨(detRoi w h).x, (detRoi w h).y - detRefHeight w h,
           (detRoi w h).width, detRefHeight w h⟩ (detBounds w h)

/-- Stage 1 of the detector (`watermark_detector.cpp` lines 76-95): brightness
score `clamp((region_mean - ref_mean) / 25, 0, 1)` when the reference patch is
formed (`ref_height > 8` and clipped `ref_roi.height > 4`), else 0. -/
def brightness_score (g : GrayImage) : ℚ :=
  if 8 < detRefHeight g.width g.height ∧ 4 < (detRefRect g.width g.height).height then
    cvClamp ((rectMean g (detRoi g.width g.height) -
              rectMean g (detRefRect g.width g.height)) / 25) 0 1
  else 0

/-- Stage 2 of the detector (`watermark_detector.cpp` lines 97-116): variance
score `clamp(1 - wm_stddev / ref_stddev, 0, 1)` when the reference patch is
formed and `ref_stddev > 3`, else 0. -/
noncomputable def variance_score (g : GrayImage) : ℝ :=
  if 8 < detRefHeight g.width g.height ∧ 4 < (detRefRect g.width g.height).height then
    if 3 < rectStddev g (detRefRect g.width g.height) then
      cvClamp (1 - rectStddev g (detRoi g.width g.height) /
                   rectStddev g (detRefRect g.width g.height)) 0 1
    else 0
  else 0

/-- Stage 3 of the detector (`watermark_detector.cpp` lines 118-131): edge
density `countNonZero(edges) / region.total()`; score
`clamp(1 - |density - 0.06| / 0.15, 0, 1)` when the density lies in
`[0.01, 0.25]`, else 0.  `canny` stands for the OpenCV Canny call. -/
def edge_score (g : GrayImage) (canny : GrayImage → Rect → ℕ) : ℚ :=
  let roi := detRoi g.width g.height
  let d : ℚ := (canny g roi : ℚ) / ((roi.width * roi.height : ℤ) : ℚ)
  if 1/100 ≤ d ∧ d ≤ 1/4 then
    cvClamp (1 - |d - 6/100| / (15/100)) 0 1
  else 0

/-- `DetectionResult` (`watermark_detector.hpp` lines 29-33). -/
structure DetectionResult where
  region : Rect
  confidence : ℝ
  method : String

/-- `detect_watermark_region` (`watermark_detector.cpp` lines 32-154):
`std::nullopt` on an empty image; a zero-confidence result carrying the
unclipped expected box when the clipped region is below 8 pixels in either
dimension; otherwise the combined score
`clamp(0.15 + brightness*0.35 + variance*0.35 + edge*0.15, 0, 1)`.
The `hint_rect` parameter is accepted and discarded, as in the source
(`(void)hint_rect`). -/
noncomputable def detect_watermark_region (g : GrayImage) (hint_rect : Option Rect)
    (canny : GrayImage → Rect → ℕ) : Option DetectionResult :=
  if g.width * g.height = 0 then none
  else
    if (detRoi g.width g.height).width < 8 ∨ (detRoi g.width g.height).height < 8 then
      some ⟨detExpectedRect g.width g.height, 0, "alpha_correlation"⟩
    else
      some ⟨detExpectedRect g.width g.height,
            cvClamp ((0.15 : ℝ) + (brightness_score g : ℝ) * 0.35 +
                     variance_score g * 0.35 + (edge_score g canny : ℝ) * 0.15) 0 1,
            "alpha_correlation"⟩

/-- C5.  Detector confidence combination: on a non-empty image whose clipped
candidate region is at least 8 pixels in both dimensions, the returned
confidence is `0.15 + 0.35*brightness + 0.35*variance + 0.15*edge`, clamped
to [0, 1]. -/
theorem detector_confidence_combination (g : GrayImage) (hint : Option Rect)
    (canny : GrayImage → Rect → ℕ)
    (hne : g.width * g.height ≠ 0)
    (hw : 8 ≤ (detRoi g.width g.height).width)
    (hh : 8 ≤ (detRoi g.width g.height).height) :
    detect_watermark_region g hint canny =
      some ⟨detExpectedRect g.width g.height,
            cvClamp ((0.15 : ℝ) + 0.35 * (brightness_score g : ℝ) +
                     0.35 * variance_score g + 0.15 * (edge_score g canny : ℝ)) 0 1,
            "alpha_correlation"⟩ := by
  unfold detect_watermark_region
  rw [if_neg hne, if_neg (by omega)]
  have harg : (0.15 : ℝ) + (brightness_score g : ℝ) * 0.35 +
      variance_score g * 0.35 + (edge_score g canny : ℝ) * 0.15 =
      (0.15 : ℝ) + 0.35 * (brightness_score g : ℝ) +
      0.35 * variance_score g + 0.15 * (edge_score g canny : ℝ) := by ring
  rw [harg]

/-- Constant-zero grayscale image of side 100, used to instantiate detector
theorems. -/
def gray100 : GrayImage :=
  ⟨100, 100, fun _ _ => 0⟩

/-- Edge-pixel counter returning no edge pixels, standing for a Canny run on
featureless input. -/
def cannyZero : GrayImage → Rect → ℕ :=
  fun _ _ => 0

/-- C5 witness: the combination formula instantiated on a 100x100 image. -/
theorem detector_confidence_combination_witness :
    (100 : ℕ) * 100 ≠ 0 ∧ 8 ≤ (detRoi 100 100).width ∧
    detect_watermark_region gray100 none cannyZero =
      some ⟨detExpectedRect 100 100,
            cvClamp ((0.15 : ℝ) + 0.35 * (brightness_score gray100 : ℝ) +
                     0.35 * variance_score gray100 + 0.15 * (edge_score gray100 cannyZero : ℝ)) 0 1,
            "alpha_correlation"⟩ :=
  ⟨by decide, by decide,
   detector_confidence_combination gray100 none cannyZero (by decide) (by decide) (by decide)⟩

/-- C6.  Brightness evidence: the detector's brightness score compares the
candidate-region mean against the reference patch above it, whose vertical
offset is `min(region_y, region_height)` of the expected box; the score is
`clamp((candidate_mean - reference_mean) / 25, 0, 1)`, and it is 0 whenever
the patch cannot be formed (offset at most 8, or clipped patch height at most
4). -/
theorem brightness_evidence (g : GrayImage) :
    brightness_score g =
      if 8 < min (detExpectedRect g.width g.height).y (detExpectedRect g.width g.height).height ∧
         4 < (detRefRect g.width g.height).height then
        cvClamp ((rectMean g (detRoi g.width g.height) -
                  rectMean g (detRefRect g.width g.height)) / 25) 0 1
      else 0 := by
  rfl

/-- C6 witness: the brightness score of a concrete featureless 100x100
image. -/
theorem brightness_evidence_witness :
    brightness_score gray100 =
      if 8 < min (detExpectedRect 100 100).y (detExpectedRect 100 100).height ∧
         4 < (detRefRect 100 100).height then
        cvClamp ((rectMean gray100 (detRoi 100 100) -
                  rectMean gray100 (detRefRect 100 100)) / 25) 0 1
      else 0 :=
  brightness_evidence gray100

/-- Constant-zero 40x40 grayscale image: the concrete input of the C7
counterexample. -/
def gray40 : GrayImage :=
  ⟨40, 40, fun _ _ => 0⟩

/-- C7 counterexample: on a 40x40 image the clipped candidate region is
40x40 — not below 8 pixels — and detection returns confidence 0.15, not 0,
so the claim's example input falsifies it. -/
theorem bounds_clipping_counterexample :
    (detRoi 40 40).width = 40 ∧ (detRoi 40 40).height = 40 ∧
    detect_watermark_region gray40 none cannyZero =
      some ⟨detExpectedRect 40 40, (0.15 : ℝ), "alpha_correlation"⟩ ∧
    (0.15 : ℝ) ≠ 0 := by
  refine ⟨by decide, by decide, ?_, by norm_num⟩
  have hb : brightness_score gray40 = 0 := by decide
  have hv : variance_score gray40 = 0 := by
    unfold variance_score
    rw [if_neg (by decide)]
  have he : edge_score gray40 cannyZero = 0 := by
    unfold edge_score cannyZero
    norm_num
  unfold detect_watermark_region
  rw [if_neg (by decide), if_neg (by decide), hb, hv, he]
  norm_num [cvClamp, min_def, max_def]
  decide

/-- C7 amended.  Detector bounds-clipping fallback: on a non-empty image whose
expected region clipped to the image bounds has width or height below 8
pixels (e.g. a 7x7 image), detection returns a result with confidence exactly
0 whose region is the expected unclipped box, and no error is raised. -/
theorem bounds_clipping_fallback (g : GrayImage) (hint : Option Rect)
    (canny : GrayImage → Rect → ℕ)
    (hne : g.width * g.height ≠ 0)
    (hsmall : (detRoi g.width g.height).width < 8 ∨ (detRoi g.width g.height).height < 8) :
    detect_watermark_region g hint canny =
      some ⟨detExpectedRect g.width g.height, 0, "alpha_correlation"⟩ := by
  unfold detect_watermark_region
  rw [if_neg hne, if_pos hsmall]

/-- Constant-zero 7x7 grayscale image, smaller than the minimum usable
clipped region. -/
def gray7 : GrayImage :=
  ⟨7, 7, fun _ _ => 0⟩

/-- C7 witness: the zero-confidence fallback on a 7x7 image. -/
theorem bounds_clipping_fallback_witness :
    (7 : ℕ) * 7 ≠ 0 ∧ (detRoi 7 7).width < 8 ∧
    detect_watermark_region gray7 none cannyZero =
      some ⟨detExpectedRect 7 7, 0, "alpha_correlation"⟩ :=
  ⟨by decide, by decide,
   bounds_clipping_fallback gray7 none cannyZero (by decide) (Or.inl (by decide))⟩

/-- C9.  Detection never fails: the embedded detector is a total function and
returns `none` exactly on an image with zero pixels. -/
theorem detection_total (g : GrayImage) (hint : Option Rect)
    (canny : GrayImage → Rect → ℕ) :
    detect_watermark_region g hint canny = none ↔ g.width * g.height = 0 := by
  unfold detect_watermark_region
  by_cases hne : g.width * g.height = 0
  · simp [hne]
  · rw [if_neg hne]
    by_cases hsmall : (detRoi g.width g.height).width < 8 ∨ (detRoi g.width g.height).height < 8 <;>
      simp [hsmall, hne]

/-- Grayscale image with zero pixels. -/
def grayEmpty : GrayImage :=
  ⟨0, 0, fun _ _ => 0⟩

/-- C9 witness: detection on a zero-pixel image returns nothing, and on a
100x100 image returns something. -/
theorem detection_total_witness :
    detect_watermark_region grayEmpty none cannyZero = none ∧
    detect_watermark_region gray100 none cannyZero ≠ none :=
  ⟨(detection_total grayEmpty none cannyZero).mpr (by decide),
   fun hcon => by
     have := (detection_total gray100 none cannyZero).mp hcon
     simp [gray100] at this⟩

/-- C10.  Hint noninterference: the detector's result does not depend on the
`hint_rect` argument. -/
theorem hint_noninterference (g : GrayImage) (h1 h2 : Option Rect)
    (canny : GrayImage → Rect → ℕ) :
    detect_watermark_region g h1 canny = detect_watermark_region g h2 canny :=
  rfl

/-! ## Compositing engine (`watermark_engine.cpp`)

Images are 3-channel 8-bit buffers; the channel normalization performed by
the external `cv::cvtColor` calls is outside the repository, so the embedded
operations work on already-normalized 3-channel images.  The per-pixel blend
kernels live in `core/blend_modes.hpp`, which is not under `src/`; they are
modelled from the spec below.  `cv::resize` on alpha maps is an OpenCV call
and enters the model as a parameter `resize`. -/

/-- A per-pixel alpha (opacity) map. -/
structure AlphaMap where
  width : ℤ
  height : ℤ
  val : ℤ → ℤ → ℚ

/-- A 3-channel 8-bit image: each pixel channel holds a natural number
(0..255 in any image produced by the codec). -/
structure Image where
  width : ℕ
  height : ℕ
  pix : ℤ → ℤ → Fin 3 → ℕ

/-- Round to nearest integer, halves up: the storage of an exact blend result
into an 8-bit channel. -/
def rnd (q : ℚ) : ℤ :=
  ⌊q + 1/2⌋

/-- Saturate an integer into the 8-bit channel range. -/
def clamp255 (z : ℤ) : ℕ :=
  (max 0 (min 255 z)).toNat

/-- Membership of a pixel in the placed watermark region intersected with the
image bounds (image of dimensions `w` by `h`). -/
def inBlendRegion (w h : ℕ) (am : AlphaMap) (px py x y : ℤ) : Prop :=
  px ≤ x ∧ x < px + am.width ∧ py ≤ y ∧ y < py + am.height ∧
  0 ≤ x ∧ x < (w : ℤ) ∧ 0 ≤ y ∧ y < (h : ℤ)

instance (w h : ℕ) (am : AlphaMap) (px py x y : ℤ) :
    Decidable (inBlendRegion w h am px py x y) := by
  unfold inBlendRegion
  infer_instance

/-- One channel of the forward blend: `a * logoIntensity + (1 - a) * input`,
stored into the 8-bit buffer. -/
def add_blend_pix (a logo : ℚ) (p : ℕ) : ℕ :=
  clamp255 (rnd (a * logo + (1 - a) * (p : ℚ)))

/-- One channel of the inverse blend: `(blended - a * logoIntensity) /
(1 - a)` stored into the 8-bit buffer, with pass-through when `a` is within
epsilon (1e-3) of 1. -/
def remove_blend_pix (a logo : ℚ) (p : ℕ) : ℕ :=
  if 1 - 1/1000 ≤ a then p
  else clamp255 (rnd (((p : ℚ) - a * logo) / (1 - a)))

/-- Modelled from the spec: `add_watermark_alpha_blend` lives in
`core/blend_modes.hpp`, which is not under `src/`.  Spec section 4.3, forward
blend: for every pixel inside the placed region (intersected with the image
bounds), per channel, `output = a * logoIntensity + (1 - a) * input`, stored
back into the 8-bit buffer (round to nearest, saturate to [0, 255]); pixels
outside the region are untouched. -/
def add_watermark_alpha_blend (img : Image) (am : AlphaMap) (px py : ℤ) (logo : ℚ) : Image :=
  { img with pix := fun x y c =>
      if inBlendRegion img.width img.height am px py x y then
        add_blend_pix (am.val (x - px) (y - py)) logo (img.pix x y c)
      else img.pix x y c }

/-- Modelled from the spec: `remove_watermark_alpha_blend` lives in
`core/blend_modes.hpp`, which is not under `src/`.  Spec section 4.3, inverse
blend: `output = (blended - a * logoIntensity) / (1 - a)` per channel inside
the placed region, stored back into the 8-bit buffer; when `a` is within
epsilon (1e-3) of 1 the pixel is non-invertible and passes through
unchanged. -/
def remove_watermark_alpha_blend (img : Image) (am : AlphaMap) (px py : ℤ) (logo : ℚ) : Image :=
  { img with pix := fun x y c =>
      if inBlendRegion img.width img.height am px py x y then
        remove_blend_pix (am.val (x - px) (y - py)) logo (img.pix x y c)
      else img.pix x y c }

/-- The engine state: the two canonical alpha maps built at construction and
the logo intensity (`watermark_engine.hpp` members `alpha_map_small_`,
`alpha_map_large_`, `logo_value_`). -/
structure WatermarkEngine where
  alpha_map_small : AlphaMap
  alpha_map_large : AlphaMap
  logo_value : ℚ

/-- `WatermarkEngine::get_alpha_map` (`watermark_engine.cpp` lines
209-211). -/
def WatermarkEngine.get_alpha_map (e : WatermarkEngine) (size : WatermarkSize) : AlphaMap :=
  if size = WatermarkSize.Small then e.alpha_map_small else e.alpha_map_large

/-- The placement config recomputed from the actual size used
(`watermark_engine.cpp` lines 152-157 and 191-196). -/
def config_for_size (size : WatermarkSize) : WatermarkPosition :=
  if size = WatermarkSize.Small then ⟨32, 32, 48⟩ else ⟨64, 64, 96⟩

/-- `WatermarkEngine::add_watermark` (`watermark_engine.cpp` lines 171-207):
fail on an empty image, pick the size (forced or from the dimensions), blend
the matching alpha map at the resolved position. -/
def WatermarkEngine.add_watermark (e : WatermarkEngine) (img : Image)
    (force_size : Option WatermarkSize) : Except String Image :=
  if img.width * img.height = 0 then Except.error "Empty image provided"
  else
    Except.ok (add_watermark_alpha_blend img
      (e.get_alpha_map (force_size.getD (get_watermark_size img.width img.height)))
      ((config_for_size (force_size.getD (get_watermark_size img.width img.height))).get_position
        img.width img.height).1
      ((config_for_size (force_size.getD (get_watermark_size img.width img.height))).get_position
        img.width img.height).2
      e.logo_value)

/-- `WatermarkEngine::remove_watermark` (`watermark_engine.cpp` lines
132-168): fail on an empty image, pick the size (forced or from the
dimensions), reverse-blend the matching alpha map at the resolved
position. -/
def WatermarkEngine.remove_watermark (e : WatermarkEngine) (img : Image)
    (force_size : Option WatermarkSize) : Except String Image :=
  if img.width * img.height = 0 then Except.error "Empty image provided"
  else
    Except.ok (remove_watermark_alpha_blend img
      (e.get_alpha_map (force_size.getD (get_watermark_size img.width img.height)))
      ((config_for_size (force_size.getD (get_watermark_size img.width img.height))).get_position
        img.width img.height).1
      ((config_for_size (force_size.getD (get_watermark_size img.width img.height))).get_position
        img.width img.height).2
      e.logo_value)

/-- The interpolation methods `cv::INTER_LINEAR` and `cv::INTER_AREA` chosen
by `create_interpolated_alpha`. -/
inductive ResampleMethod where
  | bilinear
  | area
deriving DecidableEq

/-- `WatermarkEngine::create_interpolated_alpha` (`watermark_engine.cpp`
lines 213-235): the source is always the large alpha map; an exact-size
request returns a copy of it, otherwise `cv::resize` (the parameter
`resize`) runs with bilinear interpolation when either target dimension
exceeds the source and area interpolation otherwise. -/
def WatermarkEngine.create_interpolated_alpha (e : WatermarkEngine)
    (resize : AlphaMap → ℤ → ℤ → ResampleMethod → AlphaMap)
    (target_width target_height : ℤ) : AlphaMap :=
  if target_width = e.alpha_map_large.width ∧ target_height = e.alpha_map_large.height then
    e.alpha_map_large
  else
    resize e.alpha_map_large target_width target_height
      (if e.alpha_map_large.width < target_width ∨ e.alpha_map_large.height < target_height then
        ResampleMethod.bilinear
      else ResampleMethod.area)

/-- `WatermarkEngine::remove_watermark_custom` (`watermark_engine.cpp` lines
237-275): fail on an empty image; a 48x48 region reverse-blends the small
map, a 96x96 region the large map, any other size an interpolated map. -/
def WatermarkEngine.remove_watermark_custom (e : WatermarkEngine)
    (resize : AlphaMap → ℤ → ℤ → ResampleMethod → AlphaMap)
    (img : Image) (region : Rect) : Except String Image :=
  if img.width * img.height = 0 then Except.error "Empty image provided"
  else if region.width = 48 ∧ region.height = 48 then
    Except.ok (remove_watermark_alpha_blend img e.alpha_map_small region.x region.y e.logo_value)
  else if region.width = 96 ∧ region.height = 96 then
    Except.ok (remove_watermark_alpha_blend img e.alpha_map_large region.x region.y e.logo_value)
  else
    Except.ok (remove_watermark_alpha_blend img
      (e.create_interpolated_alpha resize region.width region.height)
      region.x region.y e.logo_value)

/-- `WatermarkEngine::add_watermark_custom` (`watermark_engine.cpp` lines
277-313): fail on an empty image; a 48x48 region blends the small map, a
96x96 region the large map, any other size an interpolated map. -/
def WatermarkEngine.add_watermark_custom (e : WatermarkEngine)
    (resize : AlphaMap → ℤ → ℤ → ResampleMethod → AlphaMap)
    (img : Image) (region : Rect) : Except String Image :=
  if img.width * img.height = 0 then Except.error "Empty image provided"
  else if region.width = 48 ∧ region.height = 48 then
    Except.ok (add_watermark_alpha_blend img e.alpha_map_small region.x region.y e.logo_value)
  else if region.width = 96 ∧ region.height = 96 then
    Except.ok (add_watermark_alpha_blend img e.alpha_map_large region.x region.y e.logo_value)
  else
    Except.ok (add_watermark_alpha_blend img
      (e.create_interpolated_alpha resize region.width region.height)
      region.x region.y e.logo_value)

/-- The alpha-map selection for a custom region as the spec words it
(spec section 4.3, size/placement selection): the canonical map on an exact
48x48 or 96x96 match, otherwise a resample of the Large canonical map —
never the Small one — bilinear when upscaling past 96, area-averaging
otherwise.  Stated from the spec to be compared with the code's selection. -/
def specCustomAlpha (e : WatermarkEngine)
    (resize : AlphaMap → ℤ → ℤ → ResampleMethod → AlphaMap) (w h : ℤ) : AlphaMap :=
  if w = 48 ∧ h = 48 then e.alpha_map_small
  else if w = 96 ∧ h = 96 then e.alpha_map_large
  else
    resize e.alpha_map_large w h
      (if 96 < w ∨ 96 < h then ResampleMethod.bilinear else ResampleMethod.area)

/-- C4.  Custom-size alpha map selection: on any non-empty image, both custom
operations blend with exactly the alpha map the spec prescribes — the
canonical Small map for a 48x48 region, the canonical Large map for a 96x96
region, and otherwise a resample of the Large map (never the Small one),
bilinear when a target dimension exceeds 96 and area-averaging otherwise. -/
theorem custom_alpha_selection (e : WatermarkEngine)
    (resize : AlphaMap → ℤ → ℤ → ResampleMethod → AlphaMap)
    (img : Image) (r : Rect)
    (hne : img.width * img.height ≠ 0)
    (hlw : e.alpha_map_large.width = 96) (hlh : e.alpha_map_large.height = 96) :
    e.remove_watermark_custom resize img r =
      Except.ok (remove_watermark_alpha_blend img
        (specCustomAlpha e resize r.width r.height) r.x r.y e.logo_value) ∧
    e.add_watermark_custom resize img r =
      Except.ok (add_watermark_alpha_blend img
        (specCustomAlpha e resize r.width r.height) r.x r.y e.logo_value) := by
  constructor <;>
  · simp only [WatermarkEngine.remove_watermark_custom, WatermarkEngine.add_watermark_custom,
      specCustomAlpha, WatermarkEngine.create_interpolated_alpha, hlw, hlh, if_neg hne]
    by_cases h48 : r.width = 48 ∧ r.height = 48 <;>
      by_cases h96 : r.width = 96 ∧ r.height = 96 <;>
      simp [h48, h96]

/-- A resampler standing in for `cv::resize`, returning a zero map of the
requested dimensions. -/
def resizeZero : AlphaMap → ℤ → ℤ → ResampleMethod → AlphaMap :=
  fun _ w h _ => ⟨w, h, fun _ _ => 0⟩

/-- An engine whose canonical alpha maps are identically zero at the
canonical 48x48 and 96x96 dimensions, with white logo intensity. -/
def engFlat : WatermarkEngine :=
  ⟨⟨48, 48, fun _ _ => 0⟩, ⟨96, 96, fun _ _ => 0⟩, 255⟩

/-- A 1x1 image whose single pixel holds 128 in every channel. -/
def imgOne : Image :=
  ⟨1, 1, fun _ _ _ => 128⟩

/-- C4 witness: the selection equations instantiated on a 1x1 image and a
10x10 custom region. -/
theorem custom_alpha_selection_witness :
    imgOne.width * imgOne.height ≠ 0 ∧
    engFlat.remove_watermark_custom resizeZero imgOne ⟨0, 0, 10, 10⟩ =
      Except.ok (remove_watermark_alpha_blend imgOne
        (specCustomAlpha engFlat resizeZero 10 10) 0 0 engFlat.logo_value) :=
  ⟨by decide,
   (custom_alpha_selection engFlat resizeZero imgOne ⟨0, 0, 10, 10⟩ (by decide) rfl rfl).1⟩

/-- C8.  Empty-input error: each compositing operation fails with the
empty-input error exactly on a zero-pixel image, and succeeds on every
non-empty image regardless of where the target region falls. -/
theorem empty_input_error (e : WatermarkEngine) (img : Image)
    (force_size : Option WatermarkSize) (r : Rect)
    (resize : AlphaMap → ℤ → ℤ → ResampleMethod → AlphaMap) :
    (e.add_watermark img force_size = Except.error "Empty image provided" ↔
      img.width * img.height = 0) ∧
    ((∃ out, e.add_watermark img force_size = Except.ok out) ↔ img.width * img.height ≠ 0) ∧
    (e.remove_watermark img force_size = Except.error "Empty image provided" ↔
      img.width * img.height = 0) ∧
    ((∃ out, e.remove_watermark img force_size = Except.ok out) ↔ img.width * img.height ≠ 0) ∧
    (e.add_watermark_custom resize img r = Except.error "Empty image provided" ↔
      img.width * img.height = 0) ∧
    ((∃ out, e.add_watermark_custom resize img r = Except.ok out) ↔
      img.width * img.height ≠ 0) ∧
    (e.remove_watermark_custom resize img r = Except.error "Empty image provided" ↔
      img.width * img.height = 0) ∧
    ((∃ out, e.remove_watermark_custom resize img r = Except.ok out) ↔
      img.width * img.height ≠ 0) := by
  by_cases hne : img.width * img.height = 0
  · simp [WatermarkEngine.add_watermark, WatermarkEngine.remove_watermark,
      WatermarkEngine.add_watermark_custom, WatermarkEngine.remove_watermark_custom, hne]
  · refine ⟨?_, ?_, ?_, ?_, ?_, ?_, ?_, ?_⟩ <;>
      simp only [WatermarkEngine.add_watermark, WatermarkEngine.remove_watermark,
        WatermarkEngine.add_watermark_custom, WatermarkEngine.remove_watermark_custom,
        if_neg hne] <;>
      first
        | (split_ifs <;> simp [hne])
        | simp [hne]

/-- A zero-pixel image. -/
def imgEmpty : Image :=
  ⟨0, 0, fun _ _ _ => 0⟩

/-- C8 witness: the empty-input error on a zero-pixel image and success on a
1x1 image. -/
theorem empty_input_error_witness :
    engFlat.add_watermark imgEmpty none = Except.error "Empty image provided" ∧
    (∃ out, engFlat.add_watermark imgOne none = Except.ok out) :=
  ⟨(empty_input_error engFlat imgEmpty none ⟨0, 0, 10, 10⟩ resizeZero).1.mpr (by decide),
   (empty_input_error engFlat imgOne none ⟨0, 0, 10, 10⟩ resizeZero).2.1.mpr (by decide)⟩

/-! ## Round-trip (C1) -/

lemma rnd_le (q : ℚ) : ((rnd q : ℤ) : ℚ) ≤ q + 1/2 := by
  unfold rnd
  exact Int.floor_le _

lemma lt_rnd_add_one (q : ℚ) : q + 1/2 < ((rnd q : ℤ) : ℚ) + 1 := by
  unfold rnd
  exact_mod_cast Int.lt_floor_add_one (q + 1/2)

lemma rnd_nonneg (q : ℚ) (h : 0 ≤ q) : 0 ≤ rnd q := by
  unfold rnd
  exact Int.le_floor.mpr (by push_cast; linarith)

lemma rnd_le_255 (q : ℚ) (h : q ≤ 255) : rnd q ≤ 255 := by
  have h2 : ((rnd q : ℤ) : ℚ) ≤ q + 1/2 := rnd_le q
  by_contra hcon
  push_neg at hcon
  have : (256 : ℚ) ≤ ((rnd q : ℤ) : ℚ) := by exact_mod_cast hcon
  linarith

lemma le_rnd (z : ℤ) (q : ℚ) (h : (z : ℚ) ≤ q + 1/2) : z ≤ rnd q := by
  unfold rnd
  exact Int.le_floor.mpr h

lemma rnd_lt (z : ℤ) (q : ℚ) (h : q + 1/2 < (z : ℚ)) : rnd q < z := by
  unfold rnd
  exact Int.floor_lt.mpr h

lemma rnd_eq_of (q : ℚ) (z : ℤ) (h1 : (z : ℚ) ≤ q + 1/2) (h2 : q + 1/2 < (z : ℚ) + 1) :
    rnd q = z := by
  unfold rnd
  exact Int.floor_eq_iff.mpr ⟨h1, by linarith⟩

lemma clamp255_int (z : ℤ) : ((clamp255 z : ℕ) : ℤ) = max 0 (min 255 z) := by
  unfold clamp255
  exact Int.toNat_of_nonneg (le_max_left _ _)

lemma clamp255_of_mem (z : ℤ) (h0 : 0 ≤ z) (h255 : z ≤ 255) :
    ((clamp255 z : ℕ) : ℤ) = z := by
  rw [clamp255_int]
  omega

/-- One-channel round trip: with alpha in `[0, 2/3)`, logo intensity in
`[0, 255]` and an 8-bit input channel, the inverse blend of the forward
blend lands within one intensity unit of the input. -/
lemma roundtrip_pix_val (a L : ℚ) (p : ℕ)
    (ha0 : 0 ≤ a) (ha : a < 2/3) (hL0 : 0 ≤ L) (hL : L ≤ 255) (hp : p ≤ 255) :
    |((remove_blend_pix a L (add_blend_pix a L p) : ℕ) : ℤ) - (p : ℤ)| ≤ 1 := by
  have h1a : (0 : ℚ) < 1 - a := by linarith
  have hpq : ((p : ℚ)) ≤ 255 := by exact_mod_cast hp
  have hpq0 : (0 : ℚ) ≤ (p : ℚ) := Nat.cast_nonneg p
  have hq0 : 0 ≤ a * L + (1 - a) * (p : ℚ) :=
    add_nonneg (mul_nonneg ha0 hL0) (mul_nonneg h1a.le hpq0)
  have hq255 : a * L + (1 - a) * (p : ℚ) ≤ 255 := by
    nlinarith [mul_nonneg ha0 (sub_nonneg.mpr hL), mul_nonneg h1a.le (sub_nonneg.mpr hpq)]
  have hb0 : 0 ≤ rnd (a * L + (1 - a) * (p : ℚ)) := rnd_nonneg _ hq0
  have hb255 : rnd (a * L + (1 - a) * (p : ℚ)) ≤ 255 := rnd_le_255 _ hq255
  have hadd : ((add_blend_pix a L p : ℕ) : ℤ) = rnd (a * L + (1 - a) * (p : ℚ)) := by
    unfold add_blend_pix
    exact clamp255_of_mem _ hb0 hb255
  have hcast : ((add_blend_pix a L p : ℕ) : ℚ) =
      ((rnd (a * L + (1 - a) * (p : ℚ)) : ℤ) : ℚ) := by
    exact_mod_cast hadd
  have hbq1 : ((rnd (a * L + (1 - a) * (p : ℚ)) : ℤ) : ℚ) ≤
      a * L + (1 - a) * (p : ℚ) + 1/2 := rnd_le _
  have hbq2 : a * L + (1 - a) * (p : ℚ) + 1/2 <
      ((rnd (a * L + (1 - a) * (p : ℚ)) : ℤ) : ℚ) + 1 := lt_rnd_add_one _
  have hu_lb : (p : ℚ) - 3/2 <
      (((rnd (a * L + (1 - a) * (p : ℚ)) : ℤ) : ℚ) - a * L) / (1 - a) := by
    rw [lt_div_iff₀ h1a]
    nlinarith
  have hu_ub : (((rnd (a * L + (1 - a) * (p : ℚ)) : ℤ) : ℚ) - a * L) / (1 - a) <
      (p : ℚ) + 3/2 := by
    rw [div_lt_iff₀ h1a]
    nlinarith
  have hr_lb : (p : ℤ) - 1 ≤
      rnd ((((rnd (a * L + (1 - a) * (p : ℚ)) : ℤ) : ℚ) - a * L) / (1 - a)) :=
    le_rnd _ _ (by push_cast; linarith)
  have hr_ub : rnd ((((rnd (a * L + (1 - a) * (p : ℚ)) : ℤ) : ℚ) - a * L) / (1 - a)) ≤
      (p : ℤ) + 1 := by
    have hlt : rnd ((((rnd (a * L + (1 - a) * (p : ℚ)) : ℤ) : ℚ) - a * L) / (1 - a)) <
        (p : ℤ) + 2 := rnd_lt _ _ (by push_cast; linarith)
    omega
  have hpz : (p : ℤ) ≤ 255 := by exact_mod_cast hp
  unfold remove_blend_pix
  rw [if_neg (by linarith : ¬(1 - 1/1000 ≤ a)), hcast, clamp255_int, abs_le]
  constructor <;> omega

@[simp] lemma add_blend_width (img : Image) (am : AlphaMap) (px py : ℤ) (L : ℚ) :
    (add_watermark_alpha_blend img am px py L).width = img.width := rfl

@[simp] lemma add_blend_height (img : Image) (am : AlphaMap) (px py : ℤ) (L : ℚ) :
    (add_watermark_alpha_blend img am px py L).height = img.height := rfl

/-- The composed per-pixel action of the inverse blend after the forward
blend. -/
lemma remove_add_pix (img : Image) (am : AlphaMap) (px py : ℤ) (L : ℚ)
    (x y : ℤ) (c : Fin 3) :
    (remove_watermark_alpha_blend (add_watermark_alpha_blend img am px py L) am px py L).pix
        x y c =
      if inBlendRegion img.width img.height am px py x y then
        remove_blend_pix (am.val (x - px) (y - py)) L
          (add_blend_pix (am.val (x - px) (y - py)) L (img.pix x y c))
      else img.pix x y c := by
  by_cases hin : inBlendRegion img.width img.height am px py x y <;>
    simp [remove_watermark_alpha_blend, add_watermark_alpha_blend, hin]

/-- Image-level round trip of the two blends, for alpha values below 2/3
throughout the placed region. -/
lemma roundtrip_blend (img : Image) (am : AlphaMap) (px py : ℤ) (L : ℚ)
    (halpha : ∀ i j : ℤ, 0 ≤ i → i < am.width → 0 ≤ j → j < am.height →
      0 ≤ am.val i j ∧ am.val i j < 2/3)
    (hL0 : 0 ≤ L) (hL : L ≤ 255)
    (hpix : ∀ (x y : ℤ) (c : Fin 3), img.pix x y c ≤ 255) :
    ∀ (x y : ℤ) (c : Fin 3),
      |((remove_watermark_alpha_blend (add_watermark_alpha_blend img am px py L)
          am px py L).pix x y c : ℤ) - (img.pix x y c : ℤ)| ≤ 1 := by
  intro x y c
  rw [remove_add_pix]
  by_cases hin : inBlendRegion img.width img.height am px py x y
  · rw [if_pos hin]
    obtain ⟨hx1, hx2, hy1, hy2, _, _, _, _⟩ := hin
    obtain ⟨ha0, ha⟩ := halpha (x - px) (y - py)
      (by omega) (by omega) (by omega) (by omega)
    exact roundtrip_pix_val _ L _ ha0 ha hL0 hL (hpix x y c)
  · rw [if_neg hin]
    simp

/-- C1 amended.  Round-trip: for an engine with logo intensity in [0, 255]
and an 8-bit image, if every alpha-map value used at the placed region is
nonnegative and strictly below 2/3 (rather than strictly below 1 - epsilon
with epsilon = 1/1000, which the counterexample refutes), then
`add_watermark` followed by `remove_watermark` with the same size selection
returns the original image within 1 intensity unit per channel per pixel. -/
theorem watermark_roundtrip (e : WatermarkEngine) (img : Image)
    (force_size : Option WatermarkSize) (img1 img2 : Image)
    (halpha : ∀ i j : ℤ, 0 ≤ i →
      i < (e.get_alpha_map (force_size.getD
            (get_watermark_size img.width img.height))).width →
      0 ≤ j →
      j < (e.get_alpha_map (force_size.getD
            (get_watermark_size img.width img.height))).height →
      0 ≤ (e.get_alpha_map (force_size.getD
            (get_watermark_size img.width img.height))).val i j ∧
      (e.get_alpha_map (force_size.getD
            (get_watermark_size img.width img.height))).val i j < 2/3)
    (hL0 : 0 ≤ e.logo_value) (hL : e.logo_value ≤ 255)
    (hpix : ∀ (x y : ℤ) (c : Fin 3), img.pix x y c ≤ 255)
    (h1 : e.add_watermark img force_size = Except.ok img1)
    (h2 : e.remove_watermark img1 force_size = Except.ok img2) :
    ∀ (x y : ℤ) (c : Fin 3),
      |(img2.pix x y c : ℤ) - (img.pix x y c : ℤ)| ≤ 1 := by
  have hne : img.width * img.height ≠ 0 := by
    intro h0
    unfold WatermarkEngine.add_watermark at h1
    rw [if_pos h0] at h1
    exact Except.noConfusion h1
  unfold WatermarkEngine.add_watermark at h1
  rw [if_neg hne] at h1
  injection h1 with h1e
  subst h1e
  unfold WatermarkEngine.remove_watermark at h2
  simp only [add_blend_width, add_blend_height] at h2
  rw [if_neg hne] at h2
  injection h2 with h2e
  subst h2e
  exact roundtrip_blend img _ _ _ _ halpha hL0 hL hpix

/-- An engine whose alpha maps are constant 1/2, with white logo
intensity. -/
def engHalf : WatermarkEngine :=
  ⟨⟨48, 48, fun _ _ => 1/2⟩, ⟨96, 96, fun _ _ => 1/2⟩, 255⟩

/-- C1 witness: the amended round trip at a 1x1 image with alpha 1/2. -/
theorem watermark_roundtrip_witness :
    (0 ≤ (engHalf.get_alpha_map WatermarkSize.Small).val 0 0 ∧
     (engHalf.get_alpha_map WatermarkSize.Small).val 0 0 < 2/3) ∧
    |((remove_watermark_alpha_blend
        (add_watermark_alpha_blend imgOne (engHalf.get_alpha_map WatermarkSize.Small)
          0 0 engHalf.logo_value)
        (engHalf.get_alpha_map WatermarkSize.Small) 0 0 engHalf.logo_value).pix 0 0 0 : ℤ) -
      (imgOne.pix 0 0 0 : ℤ)| ≤ 1 :=
  ⟨⟨by norm_num [engHalf, WatermarkEngine.get_alpha_map],
    by norm_num [engHalf, WatermarkEngine.get_alpha_map]⟩,
   watermark_roundtrip engHalf imgOne none _ _
     (fun i j _ _ _ _ =>
       ⟨by norm_num [engHalf, imgOne, WatermarkEngine.get_alpha_map, get_watermark_size,
            Option.getD],
        by norm_num [engHalf, imgOne, WatermarkEngine.get_alpha_map, get_watermark_size,
            Option.getD]⟩)
     (by norm_num [engHalf]) (by norm_num [engHalf])
     (fun x y c => by norm_num [imgOne]) rfl rfl 0 0 0⟩

/-- An engine whose alpha maps are constant 254/255 — still strictly below
1 - 1/1000 — with white logo intensity. -/
def eng254 : WatermarkEngine :=
  ⟨⟨48, 48, fun _ _ => 254/255⟩, ⟨96, 96, fun _ _ => 254/255⟩, 255⟩

/-- C1 counterexample: with alpha 254/255 (strictly below 1 - 1/1000, logo
intensity 255, all pixel values 8-bit), the round trip on a 1x1 image with
pixel value 128 returns 255 — off by 127, far beyond the claimed 1-unit
tolerance. -/
theorem watermark_roundtrip_counterexample :
    ((eng254.get_alpha_map WatermarkSize.Small).val 0 0 = 254/255 ∧
     (254/255 : ℚ) < 1 - 1/1000 ∧ eng254.logo_value = 255 ∧ imgOne.pix 0 0 0 = 128) ∧
    ((eng254.add_watermark imgOne none).bind
        (fun m => eng254.remove_watermark m none)).toOption.map
      (fun m => m.pix 0 0 0) = some 255 ∧
    ¬(|(255 : ℤ) - (imgOne.pix 0 0 0 : ℤ)| ≤ 1) := by
  refine ⟨⟨rfl, by norm_num, rfl, rfl⟩, ?_, by decide⟩
  have hchain : ((eng254.add_watermark imgOne none).bind
      (fun m => eng254.remove_watermark m none)).toOption.map (fun m => m.pix 0 0 0) =
      some ((remove_watermark_alpha_blend
        (add_watermark_alpha_blend imgOne eng254.alpha_map_small 0 0 255)
        eng254.alpha_map_small 0 0 255).pix 0 0 0) := rfl
  rw [hchain]
  congr 1
  rw [remove_add_pix, if_pos (by decide)]
  show remove_blend_pix (254/255) 255 (add_blend_pix (254/255) 255 128) = 255
  have ha : add_blend_pix (254/255) 255 128 = 255 := by
    unfold add_blend_pix
    have hv : rnd ((254 : ℚ)/255 * 255 + (1 - 254/255) * ((128 : ℕ) : ℚ)) = 255 :=
      rnd_eq_of _ 255 (by push_cast; norm_num) (by push_cast; norm_num)
    rw [hv]
    decide
  rw [ha]
  unfold remove_blend_pix
  rw [if_neg (by norm_num)]
  have hr : rnd ((((255 : ℕ) : ℚ) - 254/255 * 255) / (1 - 254/255)) = 255 :=
    rnd_eq_of _ 255 (by push_cast; norm_num) (by push_cast; norm_num)
  rw [hr]
  decide

end GWT
